import Mathlib

/-!
Verification development for the online room/matchmaking coordination core of
a two-player Tic-Tac-Toe server (src/server/index-clean.js).

The server keeps two pieces of process-wide mutable state:
  - `rooms`: a Map from room code to room state (players, currentTurn, board);
  - `waitingPlayers`: an array of connection ids waiting for a random match.

Each socket event handler is embedded below as a pure function from the
relevant state (plus the sender id and payload) to the new state together with
an explicit description of the events the handler emits.  The embedding
follows index-clean.js line by line; JavaScript Map semantics (set replaces an
existing binding in place, otherwise appends; delete removes the binding) are
modelled by an association list.
-/

/-- A player symbol, X or O. -/
inductive PlayerSymbol where
  | X
  | O
deriving DecidableEq, Repr

/-- The flip applied to `currentTurn` after an accepted move
(index-clean.js line 165): X becomes O and O becomes X. -/
def otherSymbol : PlayerSymbol → PlayerSymbol
  | .X => .O
  | .O => .X

/-- A room member: `{ id: socket.id, symbol }`. -/
structure Player where
  id : String
  symbol : PlayerSymbol
deriving DecidableEq, Repr

/-- Room state as stored in the `rooms` map:
`{ players, currentTurn, board }` with `board = Array(9).fill(null)` at
creation.  A board cell is `none` for null, `some s` for a placed symbol. -/
structure Room where
  players : List Player
  currentTurn : PlayerSymbol
  board : List (Option PlayerSymbol)
deriving DecidableEq, Repr

/-- The `rooms` Map, as an association list from room code to room state. -/
abbrev Registry := List (String × Room)

/-- `rooms.get(code)`. -/
def rget (rs : Registry) (code : String) : Option Room :=
  rs.lookup code

/-- `rooms.set(code, room)`: replaces the binding in place if the key is
present, otherwise appends a new binding (JavaScript Map insertion order). -/
def rset (rs : Registry) (code : String) (room : Room) : Registry :=
  if rs.any (fun kv => kv.1 == code) then
    rs.map (fun kv => if kv.1 == code then (code, room) else kv)
  else
    rs ++ [(code, room)]

/-- `rooms.delete(code)`. -/
def rdelete (rs : Registry) (code : String) : Registry :=
  rs.filter (fun kv => kv.1 != code)

/-- The `waitingPlayers` array of connection ids. -/
abbrev Queue := List String

/-- `Array(9).fill(null)`. -/
def emptyBoard : List (Option PlayerSymbol) :=
  List.replicate 9 none

/-- The room registered by the create_room handler (index-clean.js lines
73-77): one player (the creator) as X, turn X, empty board. -/
def initialRoom (creatorId : String) : Room :=
  { players := [{ id := creatorId, symbol := .X }]
    currentTurn := .X
    board := emptyBoard }

/-- The room registered by the find_random_match handler on a pairing
(index-clean.js lines 192-199): the popped seeker as X, the new seeker as O,
turn X, empty board. -/
def pairedRoom (xId oId : String) : Room :=
  { players := [{ id := xId, symbol := .X }, { id := oId, symbol := .O }]
    currentTurn := .X
    board := emptyBoard }

/-- What the create_room handler emits: `room_created { roomCode }` to the
creator only. -/
inductive CreateOutcome where
  | roomCreated (roomCode : String)
deriving DecidableEq, Repr

/-- The create_room handler (index-clean.js lines 67-87).
`data?.roomCode || nanoid(6).toUpperCase()` falls back to a generated code
when the requested code is absent or empty (JavaScript falsy); the generated
code is passed in as `generatedCode` since nanoid is a random source.  There
is no collision check: `rooms.set` overwrites any existing room under the
chosen code. -/
def createRoom (rs : Registry) (senderId : String) (requestedCode : Option String)
    (generatedCode : String) : Registry × CreateOutcome :=
  let roomCode :=
    match requestedCode with
    | some c => if c.isEmpty then generatedCode else c
    | none => generatedCode
  (rset rs roomCode (initialRoom senderId), .roomCreated roomCode)

/-- What the join_room handler emits: either `error msg` to the sender only,
or `game_start` to every socket in the room (both members). -/
inductive JoinOutcome where
  | errorToSender (msg : String)
  | gameStart (roomCode : String) (players : List Player) (currentTurn : PlayerSymbol)
deriving DecidableEq, Repr

/-- The join_room handler (index-clean.js lines 90-128).  An absent
`data?.roomCode` is modelled as the empty string (JavaScript falsy). -/
def joinRoom (rs : Registry) (senderId : String) (roomCode : String) :
    Registry × JoinOutcome :=
  if roomCode.isEmpty then
    (rs, .errorToSender "Room code is required")
  else
    match rget rs roomCode with
    | none => (rs, .errorToSender "Room not found")
    | some room =>
      if room.players.length ≥ 2 then
        (rs, .errorToSender "Room is full")
      else
        let newRoom := { room with players := room.players ++ [{ id := senderId, symbol := .O }] }
        (rset rs roomCode newRoom,
         .gameStart roomCode newRoom.players newRoom.currentTurn)

/-- What the make_move handler emits after the sender has been resolved to a
room member: `error msg` to the sender only, `move_made` broadcast to every
socket in the room, or nothing at all. -/
inductive MoveOutcome where
  | errorToSender (msg : String)
  | moveMade (position : Int) (symbol : PlayerSymbol) (board : List (Option PlayerSymbol))
      (currentTurn : PlayerSymbol)
  | silent
deriving DecidableEq, Repr

/-- `room.players.find(p => p.id === socket.id)`. -/
def senderPlayer (room : Room) (senderId : String) : Option Player :=
  room.players.find? (fun p => p.id == senderId)

/-- The core of the make_move handler (index-clean.js lines 150-176), given
the room the sender socket is in.  The earlier checks of the handler (socket
in no room, room code not in the registry) only emit an error to the sender
and touch no state; they are before this point.
`position` is an Int since the payload is client-supplied. -/
def makeMove (room : Room) (senderId : String) (position : Int) :
    Room × MoveOutcome :=
  match senderPlayer room senderId with
  | none => (room, .errorToSender "Player not found in room")
  | some player =>
    if room.currentTurn ≠ player.symbol then
      (room, .errorToSender "Not your turn")
    else if 0 ≤ position ∧ position < 9 ∧ room.board[position.toNat]? = some none then
      let newBoard := room.board.set position.toNat (some player.symbol)
      let newTurn := otherSymbol player.symbol
      ({ room with board := newBoard, currentTurn := newTurn },
       .moveMade position player.symbol newBoard newTurn)
    else
      (room, .silent)

/-- What the find_random_match handler emits: `match_found` to both paired
sockets, `waiting_for_match` to the seeker only, or nothing (the sender was
already queued). -/
inductive MatchOutcome where
  | matchFound (roomCode : String) (xId : String) (oId : String)
  | waiting
  | ignored
deriving DecidableEq, Repr

/-- The find_random_match handler (index-clean.js lines 184-225).  The
freshly generated room code for the pairing branch is passed in as
`generatedCode`. -/
def findRandomMatch (rs : Registry) (q : Queue) (senderId : String)
    (generatedCode : String) : Registry × Queue × MatchOutcome :=
  if q.contains senderId then
    (rs, q, .ignored)
  else
    match q with
    | [] => (rs, q ++ [senderId], .waiting)
    | opponentId :: rest =>
      (rset rs generatedCode (pairedRoom opponentId senderId), rest,
       .matchFound generatedCode opponentId senderId)

/-- The cancel_random_match handler (index-clean.js lines 228-238):
`indexOf` plus `splice(index, 1)` removes the first occurrence of the sender
id if present, otherwise does nothing — exactly `List.erase`. -/
def cancelRandomMatch (q : Queue) (senderId : String) : Queue :=
  q.erase senderId

/-- The leaveRoom helper (index-clean.js lines 38-61), for a room code bound
in the registry.  `socket.to(roomCode)` emits the player_left event to every
socket in the room channel except the leaver — i.e. the remaining players;
the returned list is the ids that receive `player_left`.  If no player
remains the room is deleted, otherwise it is rewritten with the remaining
players. -/
def leaveRoom (rs : Registry) (leaverId : String) (roomCode : String) :
    Registry × List String :=
  match rget rs roomCode with
  | none => (rs, [])
  | some room =>
    let remaining := room.players.filter (fun p => p.id != leaverId)
    let notified := remaining.map Player.id
    if remaining.isEmpty then
      (rdelete rs roomCode, notified)
    else
      (rset rs roomCode { room with players := remaining }, notified)

/-- True exactly when a make_move outcome is the `move_made` broadcast that
`io.to(roomCode)` sends to every socket in the room (index-clean.js lines
168-173); the error events go to the sender only and `silent` emits nothing. -/
def isMoveBroadcast : MoveOutcome → Bool
  | .moveMade _ _ _ _ => true
  | _ => false

/-- Modelled from the spec: `nanoid` is an external library dependency, not
part of this repository.  Its default alphabet is the 64 URL-safe characters
below (letters, digits, hyphen and underscore); `nanoid(n)` returns a random
string of length `n` over this alphabet.  The spec describes it as a
collision-resistant random identifier generator. -/
def nanoidAlphabet : List Char :=
  "useandom-26T198340PX75pxJACKVERYMINDBUSHWOLF_GQZbfghjklqvwyzrict".toList

/-- The strings `nanoid(n)` can return. -/
def isNanoidOutput (s : String) (n : Nat) : Prop :=
  s.length = n ∧ ∀ c ∈ s.data, c ∈ nanoidAlphabet

/-- `.toUpperCase()` on the ASCII strings nanoid produces: uppercase each
character. -/
def toUpperCode (s : String) : String :=
  ⟨s.data.map Char.toUpper⟩

/-- A character matched by the spec pattern `[A-Z0-9]`. -/
def isUpperAlnum (c : Char) : Bool :=
  decide ('A' ≤ c ∧ c ≤ 'Z') || decide ('0' ≤ c ∧ c ≤ '9')

/-- A character that can actually appear in a generated room code:
`[A-Z0-9]` plus hyphen and underscore, which survive `.toUpperCase()`. -/
def isCodeChar (c : Char) : Bool :=
  isUpperAlnum c || c == '-' || c == '_'

/-- Number of cells of the board holding symbol `s`. -/
def countSym (b : List (Option PlayerSymbol)) (s : PlayerSymbol) : Nat :=
  (b.filter (fun c => c == some s)).length

/-- One mutation of the state of an existing room, as performed by the
handlers of index-clean.js: an arbitrary make_move intent (lines 150-176),
a join of a second player (line 112), or a departure that leaves the room
alive (lines 45-55). -/
inductive RoomStep : Room → Room → Prop where
  | move (room : Room) (senderId : String) (position : Int) :
      RoomStep room (makeMove room senderId position).1
  | joinSecond (room : Room) (joinerId : String) (h : room.players.length < 2) :
      RoomStep room { room with players := room.players ++ [{ id := joinerId, symbol := .O }] }
  | leaveAlive (room : Room) (leaverId : String)
      (h : room.players.filter (fun p => p.id != leaverId) ≠ []) :
      RoomStep room { room with players := room.players.filter (fun p => p.id != leaverId) }

/-- Room states reachable while a room exists: created by create_room or by
matchmaking pairing, then mutated by the room-level steps above. -/
inductive ReachableRoom : Room → Prop where
  | created (creatorId : String) : ReachableRoom (initialRoom creatorId)
  | paired (xId oId : String) : ReachableRoom (pairedRoom xId oId)
  | step (room room' : Room) : ReachableRoom room → RoomStep room room' →
      ReachableRoom room'

/-! ### Helper lemmas about the registry embedding -/

theorem otherSymbol_ne (s : PlayerSymbol) : otherSymbol s ≠ s := by
  cases s <;> simp [otherSymbol]

theorem lookup_map_set (rs : Registry) (code : String) (room : Room)
    (h : rs.any (fun kv => kv.1 == code) = true) :
    List.lookup code (rs.map (fun kv => if kv.1 == code then (code, room) else kv)) =
      some room := by
  induction rs with
  | nil => simp at h
  | cons kv rest ih =>
    obtain ⟨k, v⟩ := kv
    by_cases hk : k = code
    · rw [List.map_cons, if_pos (show ((k, v).1 == code) = true from beq_iff_eq.mpr hk)]
      simp [List.lookup]
    · have hkb : (k == code) = false := beq_eq_false_iff_ne.mpr hk
      have hck : (code == k) = false := beq_eq_false_iff_ne.mpr fun he => hk he.symm
      rw [List.map_cons, if_neg (show ¬((k, v).1 == code) = true by simp [hkb])]
      simp only [List.any_cons] at h
      simp only [hkb, Bool.false_or] at h
      simp only [List.lookup, hck]
      exact ih h

theorem lookup_append_single (rs : Registry) (code : String) (room : Room)
    (h : rs.any (fun kv => kv.1 == code) = false) :
    List.lookup code (rs ++ [(code, room)]) = some room := by
  induction rs with
  | nil => simp [List.lookup]
  | cons kv rest ih =>
    simp only [List.any_cons, Bool.or_eq_false_iff] at h
    have hck : (code == kv.1) = false := by
      have := h.1
      simp only [beq_eq_false_iff_ne, ne_eq] at this ⊢
      exact fun he => this he.symm
    simp only [List.cons_append, List.lookup, hck]
    exact ih h.2

theorem rget_rset_self (rs : Registry) (code : String) (room : Room) :
    rget (rset rs code room) code = some room := by
  unfold rget rset
  by_cases h : rs.any (fun kv => kv.1 == code)
  · simp only [h, if_true]
    exact lookup_map_set rs code room h
  · simp only [Bool.not_eq_true] at h
    simp only [h, Bool.false_eq_true, if_false]
    exact lookup_append_single rs code room h

theorem rget_rdelete_self (rs : Registry) (code : String) :
    rget (rdelete rs code) code = none := by
  unfold rget rdelete
  induction rs with
  | nil => simp [List.lookup]
  | cons kv rest ih =>
    cases hk : kv.1 != code with
    | false => simp only [List.filter_cons, hk, Bool.false_eq_true, if_false]; exact ih
    | true =>
      have hck : (code == kv.1) = false := by
        simp only [bne_iff_ne, ne_eq] at hk
        simp only [beq_eq_false_iff_ne, ne_eq]
        exact fun he => hk he.symm
      simp only [List.filter_cons, hk, if_true, List.lookup, hck]
      exact ih

/-! ### Branch lemmas for the make_move handler -/

theorem makeMove_noMember (room : Room) (senderId : String) (pos : Int)
    (h : senderPlayer room senderId = none) :
    makeMove room senderId pos = (room, .errorToSender "Player not found in room") := by
  simp only [makeMove, h]

theorem makeMove_wrongTurn (room : Room) (senderId : String) (pos : Int) (player : Player)
    (h : senderPlayer room senderId = some player)
    (ht : room.currentTurn ≠ player.symbol) :
    makeMove room senderId pos = (room, .errorToSender "Not your turn") := by
  simp only [makeMove, h]
  rw [if_pos ht]

theorem makeMove_guardFail (room : Room) (senderId : String) (pos : Int) (player : Player)
    (h : senderPlayer room senderId = some player)
    (ht : room.currentTurn = player.symbol)
    (hg : ¬(0 ≤ pos ∧ pos < 9 ∧ room.board[pos.toNat]? = some none)) :
    makeMove room senderId pos = (room, .silent) := by
  simp only [makeMove, h]
  rw [if_neg (fun hc => hc ht), if_neg hg]

theorem makeMove_accepted (room : Room) (senderId : String) (pos : Int) (player : Player)
    (h : senderPlayer room senderId = some player)
    (ht : room.currentTurn = player.symbol)
    (hg : 0 ≤ pos ∧ pos < 9 ∧ room.board[pos.toNat]? = some none) :
    makeMove room senderId pos =
      ({ room with board := room.board.set pos.toNat (some player.symbol),
                   currentTurn := otherSymbol player.symbol },
       .moveMade pos player.symbol (room.board.set pos.toNat (some player.symbol))
         (otherSymbol player.symbol)) := by
  simp only [makeMove, h]
  rw [if_neg (fun hc => hc ht), if_pos hg]

/-! ### Claim theorems -/

/-- Claim C1: for every room and every make_move intent from a connection in
that room, the move is applied — the sender symbol is written at the given
position and currentTurn flips to the other symbol — if and only if the sender
is a member of the room, currentTurn equals the sender symbol, the position is
in [0,9), and the board cell at that position is null. -/
theorem make_move_applied_iff (room : Room) (senderId : String) (pos : Int) :
    ((∃ p, senderPlayer room senderId = some p ∧
        (makeMove room senderId pos).1 =
          { room with board := room.board.set pos.toNat (some p.symbol),
                      currentTurn := otherSymbol p.symbol }) ∧
      (makeMove room senderId pos).1 ≠ room)
    ↔ (∃ p, senderPlayer room senderId = some p ∧ room.currentTurn = p.symbol ∧
        0 ≤ pos ∧ pos < 9 ∧ room.board[pos.toNat]? = some none) := by
  cases h : senderPlayer room senderId with
  | none =>
    rw [makeMove_noMember room senderId pos h]
    simp
  | some player =>
    by_cases ht : room.currentTurn = player.symbol
    · by_cases hg : 0 ≤ pos ∧ pos < 9 ∧ room.board[pos.toNat]? = some none
      · rw [makeMove_accepted room senderId pos player h ht hg]
        constructor
        · intro _
          exact ⟨player, rfl, ht, hg.1, hg.2.1, hg.2.2⟩
        · intro _
          refine ⟨⟨player, rfl, rfl⟩, ?_⟩
          intro hcon
          have h2 : otherSymbol player.symbol = room.currentTurn :=
            congrArg Room.currentTurn hcon
          rw [ht] at h2
          exact otherSymbol_ne player.symbol h2
      · rw [makeMove_guardFail room senderId pos player h ht hg]
        constructor
        · rintro ⟨-, hne⟩
          exact absurd rfl hne
        · rintro ⟨p, hp, -, h1, h2, h3⟩
          cases hp
          exact absurd ⟨h1, h2, h3⟩ hg
    · rw [makeMove_wrongTurn room senderId pos player h ht]
      constructor
      · rintro ⟨-, hne⟩
        exact absurd rfl hne
      · rintro ⟨p, hp, hturn, -⟩
        cases hp
        exact absurd hturn ht

/-- Claim C2: a make_move intent that is rejected — because the target cell is
already occupied or because the sender symbol differs from currentTurn —
leaves the room board and currentTurn exactly as they were, and no move
broadcast is emitted to the peer. -/
theorem make_move_rejected_no_mutation (room : Room) (senderId : String) (pos : Int)
    (player : Player) (hp : senderPlayer room senderId = some player)
    (hrej : room.currentTurn ≠ player.symbol ∨
      (0 ≤ pos ∧ pos < 9 ∧ ∃ s, room.board[pos.toNat]? = some (some s))) :
    (makeMove room senderId pos).1.board = room.board ∧
    (makeMove room senderId pos).1.currentTurn = room.currentTurn ∧
    isMoveBroadcast (makeMove room senderId pos).2 = false := by
  rcases hrej with ht | ⟨h1, h2, s, hs⟩
  · rw [makeMove_wrongTurn room senderId pos player hp ht]
    exact ⟨rfl, rfl, rfl⟩
  · by_cases ht : room.currentTurn = player.symbol
    · have hg : ¬(0 ≤ pos ∧ pos < 9 ∧ room.board[pos.toNat]? = some none) := by
        rintro ⟨-, -, hnone⟩
        rw [hs] at hnone
        simp at hnone
      rw [makeMove_guardFail room senderId pos player hp ht hg]
      exact ⟨rfl, rfl, rfl⟩
    · rw [makeMove_wrongTurn room senderId pos player hp ht]
      exact ⟨rfl, rfl, rfl⟩

theorem make_move_rejected_no_mutation_witness :
    (makeMove (pairedRoom "a" "b") "b" 0).1.board = (pairedRoom "a" "b").board ∧
    (makeMove (pairedRoom "a" "b") "b" 0).1.currentTurn = (pairedRoom "a" "b").currentTurn ∧
    isMoveBroadcast (makeMove (pairedRoom "a" "b") "b" 0).2 = false :=
  make_move_rejected_no_mutation (pairedRoom "a" "b") "b" 0
    { id := "b", symbol := .O } (by decide) (Or.inl (by decide))

/-- Claim C10: a make_move intent from a room member whose turn it is but
whose position lies outside [0,9) is silently dropped — the room is unchanged
and no event at all is emitted, neither an error to the sender nor a
broadcast — unlike a wrong-turn intent, which is answered with an error event
to the sender. -/
theorem make_move_out_of_range_silent (room : Room) (senderId : String) (pos : Int)
    (player : Player) (hp : senderPlayer room senderId = some player)
    (ht : room.currentTurn = player.symbol)
    (hpos : pos < 0 ∨ 9 ≤ pos) :
    ((makeMove room senderId pos).1 = room ∧
     (makeMove room senderId pos).2 = MoveOutcome.silent) ∧
    ∀ (room' : Room) (senderId' : String) (pos' : Int) (player' : Player),
      senderPlayer room' senderId' = some player' →
      room'.currentTurn ≠ player'.symbol →
      (makeMove room' senderId' pos').2 = MoveOutcome.errorToSender "Not your turn" := by
  have hg : ¬(0 ≤ pos ∧ pos < 9 ∧ room.board[pos.toNat]? = some none) := by
    rintro ⟨hge, hlt, -⟩
    rcases hpos with hneg | hbig
    · exact absurd hge (by omega)
    · exact absurd hlt (by omega)
  rw [makeMove_guardFail room senderId pos player hp ht hg]
  refine ⟨⟨rfl, rfl⟩, ?_⟩
  intro room' senderId' pos' player' hp' ht'
  rw [makeMove_wrongTurn room' senderId' pos' player' hp' ht']

theorem make_move_out_of_range_silent_witness :
    (makeMove (pairedRoom "a" "b") "a" 9).1 = pairedRoom "a" "b" ∧
    (makeMove (pairedRoom "a" "b") "a" 9).2 = MoveOutcome.silent :=
  (make_move_out_of_range_silent (pairedRoom "a" "b") "a" 9
    { id := "a", symbol := .X } (by decide) (by decide) (Or.inr (by decide))).1

/-- Claim C3: a join_room intent naming no existing room fails with the
room-not-found error; one naming a room that already holds 2 players fails
with the room-full error; every failure leaves the registry — and hence the
room — unchanged; on success the joiner is appended with symbol O and the
game_start event broadcast to the room carries the full player list and
currentTurn.  An intent with no code at all (empty string, JavaScript falsy)
is answered with a missing-code error instead and is outside this claim. -/
theorem join_room_spec (rs : Registry) (senderId : String) (roomCode : String)
    (hcode : roomCode.isEmpty = false) :
    (rget rs roomCode = none →
      joinRoom rs senderId roomCode = (rs, JoinOutcome.errorToSender "Room not found")) ∧
    (∀ room, rget rs roomCode = some room → 2 ≤ room.players.length →
      joinRoom rs senderId roomCode = (rs, JoinOutcome.errorToSender "Room is full")) ∧
    (∀ room, rget rs roomCode = some room → room.players.length < 2 →
      joinRoom rs senderId roomCode =
        (rset rs roomCode
           { room with players := room.players ++ [{ id := senderId, symbol := .O }] },
         JoinOutcome.gameStart roomCode
           (room.players ++ [{ id := senderId, symbol := .O }]) room.currentTurn) ∧
      rget (joinRoom rs senderId roomCode).1 roomCode =
        some { room with players := room.players ++ [{ id := senderId, symbol := .O }] }) := by
  refine ⟨?_, ?_, ?_⟩
  · intro h
    simp only [joinRoom, hcode, Bool.false_eq_true, if_false, h]
  · intro room h hfull
    simp only [joinRoom, hcode, Bool.false_eq_true, if_false, h]
    rw [if_pos hfull]
  · intro room h hlt
    have heq : joinRoom rs senderId roomCode =
        (rset rs roomCode
           { room with players := room.players ++ [{ id := senderId, symbol := .O }] },
         JoinOutcome.gameStart roomCode
           (room.players ++ [{ id := senderId, symbol := .O }]) room.currentTurn) := by
      simp only [joinRoom, hcode, Bool.false_eq_true, if_false, h]
      rw [if_neg (by omega)]
    refine ⟨heq, ?_⟩
    rw [heq]
    exact rget_rset_self rs roomCode _

theorem join_room_spec_witness :
    joinRoom [] "joiner" "ABC123" = ([], JoinOutcome.errorToSender "Room not found") :=
  (join_room_spec [] "joiner" "ABC123" (by decide)).1 rfl

/-- Claim C5 counterexample: a create_room intent with an explicit code that
is already registered does not fail with any collision error — the handler
emits room_created and silently replaces the existing room.  Here the
existing two-player room under code "ROOM01" is overwritten by a fresh
one-player room for the creator. -/
theorem create_room_collision_counterexample :
    (createRoom [("ROOM01", pairedRoom "p1" "p2")] "p3" (some "ROOM01") "GEN123").2 =
      CreateOutcome.roomCreated "ROOM01" ∧
    rget (createRoom [("ROOM01", pairedRoom "p1" "p2")] "p3" (some "ROOM01") "GEN123").1
      "ROOM01" = some (initialRoom "p3") ∧
    initialRoom "p3" ≠ pairedRoom "p1" "p2" := by
  refine ⟨rfl, by decide, by decide⟩

/-- Claim C5 amended: a create_room intent with an explicit nonempty code
already present in the registry does not fail; the handler unconditionally
registers a fresh room — the creator as sole player with symbol X, empty
board, turn X — under that code, overwriting the existing room, and
acknowledges the creator with room_created. -/
theorem create_room_collision_overwrites (rs : Registry) (senderId code gen : String)
    (hcode : code.isEmpty = false) (room : Room) (_hex : rget rs code = some room) :
    createRoom rs senderId (some code) gen =
      (rset rs code (initialRoom senderId), CreateOutcome.roomCreated code) ∧
    rget (createRoom rs senderId (some code) gen).1 code = some (initialRoom senderId) := by
  have heq : createRoom rs senderId (some code) gen =
      (rset rs code (initialRoom senderId), CreateOutcome.roomCreated code) := by
    simp only [createRoom, hcode, Bool.false_eq_true, if_false]
  refine ⟨heq, ?_⟩
  rw [heq]
  exact rget_rset_self rs code (initialRoom senderId)

theorem create_room_collision_overwrites_witness :
    createRoom [("ROOM01", pairedRoom "p1" "p2")] "p3" (some "ROOM01") "GEN123" =
      (rset [("ROOM01", pairedRoom "p1" "p2")] "ROOM01" (initialRoom "p3"),
       CreateOutcome.roomCreated "ROOM01") ∧
    rget (createRoom [("ROOM01", pairedRoom "p1" "p2")] "p3" (some "ROOM01") "GEN123").1
      "ROOM01" = some (initialRoom "p3") :=
  create_room_collision_overwrites [("ROOM01", pairedRoom "p1" "p2")] "p3" "ROOM01"
    "GEN123" (by decide) (pairedRoom "p1" "p2") (by decide)

/-- Claim C6: when the sole player of a room leaves it (leave_room or
disconnect both call the same leaveRoom helper), the room is deleted from the
registry and a subsequent join_room with its code fails with the
room-not-found error; when another player remains, the room survives with the
remaining players, and exactly those remaining players receive the
player_left notice. -/
theorem leave_room_cleanup (rs : Registry) (leaverId roomCode joinerId : String)
    (room : Room) (p : Player)
    (hroom : rget rs roomCode = some room) (hcode : roomCode.isEmpty = false) :
    (room.players = [p] → p.id = leaverId →
      rget (leaveRoom rs leaverId roomCode).1 roomCode = none ∧
      joinRoom (leaveRoom rs leaverId roomCode).1 joinerId roomCode =
        ((leaveRoom rs leaverId roomCode).1, JoinOutcome.errorToSender "Room not found")) ∧
    (room.players.filter (fun q => q.id != leaverId) ≠ [] →
      rget (leaveRoom rs leaverId roomCode).1 roomCode =
        some { room with players := room.players.filter (fun q => q.id != leaverId) } ∧
      (leaveRoom rs leaverId roomCode).2 =
        (room.players.filter (fun q => q.id != leaverId)).map Player.id) := by
  constructor
  · intro hone hpid
    have hfil : room.players.filter (fun q => q.id != leaverId) = [] := by
      rw [hone]
      simp [hpid]
    have hleave : leaveRoom rs leaverId roomCode = (rdelete rs roomCode, []) := by
      simp only [leaveRoom, hroom, hfil, List.isEmpty_nil, if_true, List.map_nil]
    rw [hleave]
    refine ⟨rget_rdelete_self rs roomCode, ?_⟩
    have hg := rget_rdelete_self rs roomCode
    simp only [joinRoom, hcode, Bool.false_eq_true, if_false, hg]
  · intro hne
    have hleave : leaveRoom rs leaverId roomCode =
        (rset rs roomCode
           { room with players := room.players.filter (fun q => q.id != leaverId) },
         (room.players.filter (fun q => q.id != leaverId)).map Player.id) := by
      simp only [leaveRoom, hroom]
      rw [if_neg (by simp [List.isEmpty_eq_false, hne])]
    rw [hleave]
    exact ⟨rget_rset_self rs roomCode _, rfl⟩

theorem leave_room_cleanup_witness :
    rget (leaveRoom [("R1", initialRoom "a")] "a" "R1").1 "R1" = none ∧
    joinRoom (leaveRoom [("R1", initialRoom "a")] "a" "R1").1 "b" "R1" =
      ((leaveRoom [("R1", initialRoom "a")] "a" "R1").1,
       JoinOutcome.errorToSender "Room not found") :=
  (leave_room_cleanup [("R1", initialRoom "a")] "a" "R1" "b" (initialRoom "a")
    { id := "a", symbol := .X } (by decide) (by decide)).1 rfl rfl

/-- Claim C4: strict FIFO matchmaking.  Starting from an empty waiting queue,
three find_random_match intents from distinct connections A, B, C in that
order behave as follows: A is enqueued and receives the waiting
acknowledgment; B is immediately paired with A in a fresh room — A, the
earlier-waiting seeker, as X and B as O — leaving the queue empty, so A and B
are paired with each other before C is ever seen; C then finds an empty queue,
is enqueued, and receives the waiting acknowledgment, paired with no one. -/
theorem matchmaking_fifo (rs : Registry) (a b c codeA codeB codeC : String)
    (hab : a ≠ b) (_hac : a ≠ c) (_hbc : b ≠ c) :
    findRandomMatch rs [] a codeA = (rs, [a], MatchOutcome.waiting) ∧
    findRandomMatch rs [a] b codeB =
      (rset rs codeB (pairedRoom a b), [], MatchOutcome.matchFound codeB a b) ∧
    rget (rset rs codeB (pairedRoom a b)) codeB = some (pairedRoom a b) ∧
    findRandomMatch (rset rs codeB (pairedRoom a b)) [] c codeC =
      (rset rs codeB (pairedRoom a b), [c], MatchOutcome.waiting) := by
  refine ⟨?_, ?_, rget_rset_self rs codeB (pairedRoom a b), ?_⟩
  · simp [findRandomMatch]
  · have hc : ([a] : Queue).contains b = false := by
      simp only [List.contains_cons, List.contains_nil, Bool.or_false]
      exact beq_eq_false_iff_ne.mpr (Ne.symm hab)
    simp only [findRandomMatch, hc, Bool.false_eq_true, if_false]
  · simp [findRandomMatch]

theorem matchmaking_fifo_witness :
    findRandomMatch [] ["A"] "B" "CODE02" =
      (rset [] "CODE02" (pairedRoom "A" "B"), [], MatchOutcome.matchFound "CODE02" "A" "B") :=
  (matchmaking_fifo [] "A" "B" "C" "CODE01" "CODE02" "CODE03"
    (by decide) (by decide) (by decide)).2.1

/-- Every character of the nanoid alphabet is uppercased into the set
[A-Z0-9] plus hyphen and underscore. -/
theorem nanoid_alphabet_toUpper_codeChar :
    ∀ c ∈ nanoidAlphabet, isCodeChar (Char.toUpper c) = true := by
  decide

/-- Claim C7 counterexample: "user-x" is a possible output of `nanoid(6)` —
six characters of the default nanoid alphabet — and
`"user-x".toUpperCase() = "USER-X"` has length 6 but does not match
`[A-Z0-9]{6}`: the hyphen survives uppercasing. -/
theorem generated_code_not_upper_alnum :
    isNanoidOutput "user-x" 6 ∧
    (toUpperCode "user-x").length = 6 ∧
    (toUpperCode "user-x").data.all isUpperAlnum = false := by
  refine ⟨⟨by decide, by decide⟩, by decide, by decide⟩

/-- Claim C7 amended: every room code produced as `nanoid(6).toUpperCase()` —
by create_room without an explicit code, or by matchmaking pairing — has
length 6 and consists of characters from [A-Z0-9] together with hyphen and
underscore; the spec pattern [A-Z0-9]{6}` is too narrow only because the
nanoid default alphabet contains hyphen and underscore, which survive
toUpperCase. -/
theorem generated_code_format (rs : Registry) (senderId s : String)
    (h : isNanoidOutput s 6) :
    (createRoom rs senderId none (toUpperCode s)).2 =
      CreateOutcome.roomCreated (toUpperCode s) ∧
    (toUpperCode s).length = 6 ∧
    (toUpperCode s).data.all isCodeChar = true := by
  refine ⟨rfl, ?_, ?_⟩
  · show (s.data.map Char.toUpper).length = 6
    rw [List.length_map]
    exact h.1
  · rw [List.all_eq_true]
    intro x hx
    have hx' : x ∈ s.data.map Char.toUpper := hx
    obtain ⟨ch, hch, rfl⟩ := List.mem_map.mp hx'
    exact nanoid_alphabet_toUpper_codeChar ch (h.2 ch hch)

theorem generated_code_format_witness :
    (toUpperCode "jackve").length = 6 :=
  (generated_code_format [] "p1" "jackve" ⟨by decide, by decide⟩).2.1

/-- Claim C8: cancel_random_match is idempotent.  On any queue in which a
connection id appears at most once — the invariant every reachable queue
satisfies, since find_random_match refuses to enqueue an id already present —
cancelling twice yields the same queue as cancelling once, the second call is
a no-op that raises no error, and after either call the id is absent from the
queue. -/
theorem cancel_random_match_idempotent (q : Queue) (senderId : String)
    (h : q.count senderId ≤ 1) :
    cancelRandomMatch (cancelRandomMatch q senderId) senderId =
      cancelRandomMatch q senderId ∧
    senderId ∉ cancelRandomMatch q senderId := by
  have hnot : senderId ∉ cancelRandomMatch q senderId := by
    unfold cancelRandomMatch
    intro hmem
    have hcnt := List.count_erase_self senderId q
    have hpos : 0 < (q.erase senderId).count senderId := List.count_pos_iff.mpr hmem
    omega
  refine ⟨?_, hnot⟩
  show (cancelRandomMatch q senderId).erase senderId = cancelRandomMatch q senderId
  exact List.erase_of_not_mem hnot

theorem cancel_random_match_idempotent_witness :
    cancelRandomMatch (cancelRandomMatch ["A", "B"] "A") "A" =
      cancelRandomMatch ["A", "B"] "A" ∧
    "A" ∉ cancelRandomMatch ["A", "B"] "A" :=
  cancel_random_match_idempotent ["A", "B"] "A" (by decide)

/-- Splitting the X/O cell count at the head of a board. -/
theorem countSym_cons (x : Option PlayerSymbol) (l : List (Option PlayerSymbol))
    (t : PlayerSymbol) :
    countSym (x :: l) t = (if x = some t then 1 else 0) + countSym l t := by
  unfold countSym
  by_cases hx : x = some t
  · simp [List.filter_cons, hx]
    omega
  · simp [List.filter_cons, hx]

/-- Writing a symbol into a null cell adds one to that symbol's count and
leaves the other count unchanged. -/
theorem countSym_set_none (b : List (Option PlayerSymbol)) (i : Nat)
    (s t : PlayerSymbol) (h : b[i]? = some none) :
    countSym (b.set i (some s)) t = countSym b t + (if s = t then 1 else 0) := by
  induction b generalizing i with
  | nil => simp at h
  | cons hd tl ih =>
    cases i with
    | zero =>
      have hhd : hd = none := by simpa using h
      subst hhd
      rw [List.set_cons_zero, countSym_cons, countSym_cons]
      by_cases hst : s = t
      · simp [hst]
        omega
      · simp [hst, Option.some.injEq]
    | succ n =>
      have h' : tl[n]? = some none := by simpa using h
      rw [List.set_cons_succ, countSym_cons, countSym_cons, ih n h']
      omega

/-- Any room-level step preserves the turn/count balance: the number of X
cells equals the number of O cells plus one exactly when the turn is O. -/
theorem roomStep_balance (r r' : Room) (hstep : RoomStep r r')
    (hinv : countSym r.board .X =
      countSym r.board .O + (if r.currentTurn = .O then 1 else 0)) :
    countSym r'.board .X =
      countSym r'.board .O + (if r'.currentTurn = .O then 1 else 0) := by
  cases hstep with
  | joinSecond joinerId h => exact hinv
  | leaveAlive leaverId h => exact hinv
  | move senderId pos =>
    cases hsp : senderPlayer r senderId with
    | none =>
      rw [makeMove_noMember r senderId pos hsp]
      exact hinv
    | some player =>
      by_cases ht : r.currentTurn = player.symbol
      · by_cases hg : 0 ≤ pos ∧ pos < 9 ∧ r.board[pos.toNat]? = some none
        · rw [makeMove_accepted r senderId pos player hsp ht hg]
          have hX := countSym_set_none r.board pos.toNat player.symbol .X hg.2.2
          have hO := countSym_set_none r.board pos.toNat player.symbol .O hg.2.2
          rw [ht] at hinv
          cases hps : player.symbol with
          | X =>
            rw [hps] at hinv hX hO
            simp only [reduceIte, reduceCtorEq] at hinv hX hO
            simp only [hps, otherSymbol, reduceIte]
            omega
          | O =>
            rw [hps] at hinv hX hO
            simp only [reduceIte, reduceCtorEq] at hinv hX hO
            simp only [hps, otherSymbol, reduceCtorEq, reduceIte]
            omega
        · rw [makeMove_guardFail r senderId pos player hsp ht hg]
          exact hinv
      · rw [makeMove_wrongTurn r senderId pos player hsp ht]
        exact hinv

/-- Any room-level step leaves every non-null board cell exactly as it was:
an accepted move only ever writes into a null cell. -/
theorem roomStep_preserves_cells (r r' : Room) (hstep : RoomStep r r')
    (i : Nat) (s : PlayerSymbol) (h : r.board[i]? = some (some s)) :
    r'.board[i]? = some (some s) := by
  cases hstep with
  | joinSecond joinerId hlen => exact h
  | leaveAlive leaverId hfil => exact h
  | move senderId pos =>
    cases hsp : senderPlayer r senderId with
    | none =>
      rw [makeMove_noMember r senderId pos hsp]
      exact h
    | some player =>
      by_cases ht : r.currentTurn = player.symbol
      · by_cases hg : 0 ≤ pos ∧ pos < 9 ∧ r.board[pos.toNat]? = some none
        · rw [makeMove_accepted r senderId pos player hsp ht hg]
          have hne : pos.toNat ≠ i := by
            intro he
            rw [he, h] at hg
            exact Option.noConfusion (Option.some.inj hg.2.2)
          show (r.board.set pos.toNat (some player.symbol))[i]? = some (some s)
          rw [List.getElem?_set_ne hne]
          exact h
        · rw [makeMove_guardFail r senderId pos player hsp ht hg]
          exact h
      · rw [makeMove_wrongTurn r senderId pos player hsp ht]
        exact h

/-- The turn/count balance holds in every reachable room state. -/
theorem reachable_balance (r : Room) (h : ReachableRoom r) :
    countSym r.board .X =
      countSym r.board .O + (if r.currentTurn = .O then 1 else 0) := by
  induction h with
  | created creatorId =>
    show countSym emptyBoard .X = countSym emptyBoard .O +
      (if (PlayerSymbol.X : PlayerSymbol) = .O then 1 else 0)
    decide
  | paired xId oId =>
    show countSym emptyBoard .X = countSym emptyBoard .O +
      (if (PlayerSymbol.X : PlayerSymbol) = .O then 1 else 0)
    decide
  | step room room' hreach hstep ih => exact roomStep_balance room room' hstep ih

/-- Claim C9: in every room state reachable from room creation (or
matchmaking pairing) through the room mutations the handlers perform, the
number of X cells minus the number of O cells is 0 or 1, currentTurn is X
exactly when the two counts are equal, and no step ever overwrites or clears
a non-null board cell while the room exists. -/
theorem reachable_room_invariant (r : Room) (h : ReachableRoom r) :
    (countSym r.board .X = countSym r.board .O ∨
     countSym r.board .X = countSym r.board .O + 1) ∧
    (r.currentTurn = .X ↔ countSym r.board .X = countSym r.board .O) ∧
    ∀ r', RoomStep r r' → ∀ (i : Nat) (s : PlayerSymbol),
      r.board[i]? = some (some s) → r'.board[i]? = some (some s) := by
  have hbal := reachable_balance r h
  refine ⟨?_, ⟨?_, ?_⟩, ?_⟩
  · by_cases hturn : r.currentTurn = .O
    · right
      simpa [hturn] using hbal
    · left
      simpa [hturn] using hbal
  · intro hx
    rw [hx] at hbal
    simpa using hbal
  · intro heq
    cases hturn : r.currentTurn with
    | X => rfl
    | O =>
      rw [hturn] at hbal
      simp at hbal
      omega
  · intro r' hstep i s hcell
    exact roomStep_preserves_cells r r' hstep i s hcell

theorem reachable_room_invariant_witness :
    countSym (initialRoom "p1").board PlayerSymbol.X =
      countSym (initialRoom "p1").board PlayerSymbol.O :=
  ((reachable_room_invariant (initialRoom "p1") (ReachableRoom.created "p1")).2.1).mp rfl
